import Mathlib

/-!
Verification development for the Bank Stacx peer-analytics dashboard
(`src/app.py`, `src/plots.py`).

The numeric model `FVal` embeds the pandas/NumPy float semantics the code
relies on: a cell is either a rational number, positive or negative
infinity, or NaN (the missing-value sentinel).  Division follows IEEE
behaviour on these values (x/0 with x > 0 gives +inf, 0/0 gives NaN, any
operation touching NaN gives NaN), and `Series.mean` skips NaN but not
infinities, exactly as `pandas.Series.mean(skipna=True)` does.

A `DataFrame` is an explicit column list together with rows; each row has
a bank-name key and a total valuation of column names (cells of columns
absent from the frame are irrelevant because the code only reads columns
it has checked for or created).
-/

namespace BankStacx

/-- A pandas cell value: a rational, +inf, -inf, or NaN. -/
inductive FVal where
  | num (q : ℚ)
  | pinf
  | ninf
  | nan
deriving DecidableEq

namespace FVal

/-- Is this value NaN? -/
def isNan : FVal → Bool
  | nan => true
  | _ => false

/-- Is this value a finite number? -/
def isNum : FVal → Bool
  | num _ => true
  | _ => false

/-- The rational carried by a finite value (0 otherwise). -/
def toQ : FVal → ℚ
  | num q => q
  | _ => 0

/-- IEEE-style addition on cells: NaN propagates, opposite infinities give NaN. -/
def add : FVal → FVal → FVal
  | nan, _ => nan
  | _, nan => nan
  | pinf, ninf => nan
  | ninf, pinf => nan
  | pinf, _ => pinf
  | _, pinf => pinf
  | ninf, _ => ninf
  | _, ninf => ninf
  | num a, num b => num (a + b)

/-- IEEE-style division on cells: NaN propagates, x/0 is a signed infinity
for x ≠ 0 and NaN for 0/0 (this is what `numpy` float division does, the
operation `ratio_df[num] / ratio_df[den]` in the code). -/
def div : FVal → FVal → FVal
  | nan, _ => nan
  | _, nan => nan
  | num a, num b =>
      if b = 0 then (if a = 0 then nan else if 0 < a then pinf else ninf)
      else num (a / b)
  | pinf, num b => if 0 ≤ b then pinf else ninf
  | ninf, num b => if 0 ≤ b then ninf else pinf
  | num _, pinf => num 0
  | num _, ninf => num 0
  | pinf, pinf => nan
  | pinf, ninf => nan
  | ninf, pinf => nan
  | ninf, ninf => nan

end FVal

open FVal

/-- Model of `pandas.Series.mean(skipna=True)`: drop the NaN entries, sum the rest
(infinities propagate through the sum) and divide by their count; the mean
of an all-NaN (or empty) series is NaN. -/
def nmean (l : List FVal) : FVal :=
  let d := l.filter (fun v => !v.isNan)
  if d.length = 0 then FVal.nan
  else (d.foldr FVal.add (FVal.num 0)).div (FVal.num d.length)

/-- Sum of a list of rationals. -/
def qsum : List ℚ → ℚ
  | [] => 0
  | a :: l => a + qsum l

/-- Spec-side arithmetic mean of a list of rationals. -/
def arithMean (l : List ℚ) : ℚ := qsum l / l.length

/-- One data row: the `Bank` key column plus a valuation of the named
numeric columns. -/
structure Row where
  bank : String
  cells : String → FVal

/-- A loaded wide-format sheet: the numeric column names present in the
frame, and one `Row` per bank. -/
structure DataFrame where
  cols : List String
  rows : List Row

/-- The six ratios of the v1 `ratio_df` block (`app.py` lines 70–77). -/
inductive RatioName where
  | coreDeposits
  | npa
  | liquidity
  | capAdequacy
  | solvency
  | loanDeposit
deriving DecidableEq

/-- Numerator of each v1 ratio, read off the row exactly as the code does. -/
def ratioNum : RatioName → Row → FVal
  | .coreDeposits, r => r.cells "Core Deposits"
  | .npa, r => r.cells "Non performing assets"
  | .liquidity, r => r.cells "Cash & cash equivalents"
  | .capAdequacy, r => (r.cells "Tier-1 Capital").add (r.cells "Tier-2 capital")
  | .solvency, r => r.cells "Total Liabilities (excluding equity)"
  | .loanDeposit, r => r.cells "Loans"

/-- Denominator of each v1 ratio. -/
def ratioDen : RatioName → Row → FVal
  | .coreDeposits, r => r.cells "Total Deposits"
  | .npa, r => r.cells "Loans"
  | .liquidity, r => r.cells "Total Assets"
  | .capAdequacy, r => r.cells "Risk weighted assets"
  | .solvency, r => r.cells "Total Assets"
  | .loanDeposit, r => r.cells "Total Deposits"

/-- Per-bank ratio value: the row-wise division the v1 block computes. -/
def ratioVal (n : RatioName) (r : Row) : FVal := (ratioNum n r).div (ratioDen n r)

/-- Model of `market_avg = ratio_df[chosen_ratio].mean()` (`app.py` line 89). -/
def market_avg (df : DataFrame) (n : RatioName) : FVal :=
  nmean (df.rows.map (ratioVal n))

/-- The six metrics of the v2 `metric_defs` table (`app.py` lines 239–246). -/
inductive MetricName where
  | coreDeposits
  | npa
  | liquidity
  | capAdequacy
  | solvency
  | loanDeposit
deriving DecidableEq

/-- Numerator of each v2 metric; note `Solvency ratio` uses Tier-1 Capital
and `Liquidity ratio` divides by Current Liabilities, unlike v1. -/
def metricNum : MetricName → Row → FVal
  | .coreDeposits, r => r.cells "Core Deposits"
  | .npa, r => r.cells "Non performing assets"
  | .liquidity, r => r.cells "Cash & cash equivalents"
  | .capAdequacy, r => (r.cells "Tier-1 Capital").add (r.cells "Tier-2 capital")
  | .solvency, r => r.cells "Tier-1 Capital"
  | .loanDeposit, r => r.cells "Loans"

/-- Denominator of each v2 metric. -/
def metricDen : MetricName → Row → FVal
  | .coreDeposits, r => r.cells "Total Deposits"
  | .npa, r => r.cells "Loans"
  | .liquidity, r => r.cells "Current Liabilities"
  | .capAdequacy, r => r.cells "Risk weighted assets"
  | .solvency, r => r.cells "Total Liabilities (excluding equity)"
  | .loanDeposit, r => r.cells "Total Deposits"

/-- Per-bank metric value, `metric_defs[metric](peer_df)` row-wise. -/
def metricVal (m : MetricName) (r : Row) : FVal := (metricNum m r).div (metricDen m r)

/-- Model of `sector_avg = peer_df[metric].mean()` (`app.py` line 251). -/
def sector_avg (df : DataFrame) (m : MetricName) : FVal :=
  nmean (df.rows.map (metricVal m))

/-- A row is well-defined for a numerator/denominator pair when both
operands are finite numbers and the denominator is non-zero. -/
def rowOK (f g : Row → FVal) (r : Row) : Prop :=
  (f r).isNum = true ∧ (g r).isNum = true ∧ (g r).toQ ≠ 0

instance (f g : Row → FVal) (r : Row) : Decidable (rowOK f g r) := by
  unfold rowOK; infer_instance

/- ### Helper lemmas about `FVal` and `nmean` -/

theorem isNum_iff (v : FVal) : v.isNum = true ↔ ∃ q, v = FVal.num q := by
  cases v <;> simp [FVal.isNum]

theorem div_num_of_ok (a b : FVal) (ha : a.isNum = true) (hb : b.isNum = true)
    (hb0 : b.toQ ≠ 0) : a.div b = FVal.num (a.toQ / b.toQ) := by
  cases a <;> cases b <;> simp_all [FVal.isNum, FVal.toQ, FVal.div]

theorem isNan_div_num (a b : FVal) (ha : a.isNum = true) (hb : b.isNum = true)
    (hb0 : b.toQ ≠ 0) : (a.div b).isNan = false := by
  rw [div_num_of_ok a b ha hb hb0]; rfl

/-- Summing a list of finite values gives the finite sum. -/
theorem foldr_add_num (l : List FVal) (h : ∀ v ∈ l, v.isNum = true) :
    l.foldr FVal.add (FVal.num 0) = FVal.num (qsum (l.map FVal.toQ)) := by
  induction l with
  | nil => simp [qsum]
  | cons a l ih =>
      have ha := h a (by simp)
      obtain ⟨q, rfl⟩ := (isNum_iff a).mp ha
      rw [List.foldr_cons, ih (fun v hv => h v (by simp [hv]))]
      simp [FVal.add, qsum, FVal.toQ]

/-- The mean of a non-empty list of finite values is the finite arithmetic
mean. -/
theorem nmean_all_num (l : List FVal) (hne : l ≠ [])
    (h : ∀ v ∈ l, v.isNum = true) :
    nmean l = FVal.num (arithMean (l.map FVal.toQ)) := by
  have hfilter : l.filter (fun v => !v.isNan) = l := by
    apply List.filter_eq_self.mpr
    intro v hv
    have := h v hv
    cases v <;> simp_all [FVal.isNum, FVal.isNan]
  have hlen : l.length ≠ 0 := fun h0 => hne (List.length_eq_zero.mp h0)
  unfold nmean
  rw [hfilter]
  simp only [if_neg hlen]
  rw [foldr_add_num l h]
  have hlq : ((l.length : ℚ)) ≠ 0 := by exact_mod_cast hlen
  simp [FVal.div, hlq, arithMean]

/-- A NaN entry never contributes to the mean. -/
theorem nmean_cons_nan (l : List FVal) : nmean (FVal.nan :: l) = nmean l := by
  unfold nmean
  simp [FVal.isNan]

/-- The mean only depends on the non-NaN entries. -/
theorem nmean_filter (l : List FVal) :
    nmean l = nmean (l.filter (fun v => !v.isNan)) := by
  unfold nmean
  simp [List.filter_filter]

/- ### Peer selection (`app.py` v2, lines 205–218) -/

/-- Lexicographic comparison of character lists by code point — the order
Python applies via `sorted` on strings. -/
def lexLe : List Char → List Char → Bool
  | [], _ => true
  | _ :: _, [] => false
  | a :: as, b :: bs =>
      if a.toNat < b.toNat then true
      else if b.toNat < a.toNat then false
      else lexLe as bs

/-- Lexicographic string comparison by code point. -/
def strLe (a b : String) : Bool := lexLe a.data b.data

/-- The sort relation used by `sorted(...)`. -/
def strLeRel (a b : String) : Prop := strLe a b = true

instance : DecidableRel strLeRel := fun a b => by
  unfold strLeRel; infer_instance

/-- Model of `list_banks`: `sorted(df[BANK_COL].dropna().unique())` — the distinct
bank names of the frame in lexicographic order.  (Bank names are strings in
the model, so `dropna` is the identity; `unique`-then-`sorted` is modelled
by deduplication followed by sorting, which agrees with the code on the
resulting list because both produce the sorted list of the distinct names.) -/
def list_banks (df : DataFrame) : List String :=
  ((df.rows.map Row.bank).dedup).insertionSort strLeRel

/-- Model of `list.index(b)`: the first index of `b`, or failure when absent
(Python raises `ValueError`). -/
def idxOf : String → List String → Option Nat
  | _, [] => none
  | b, a :: l => if a = b then some 0 else (idxOf b l).map (· + 1)

/-- Model of `selectPeers` (the name the spec gives for the inline peer-set construction):
    sel_idx = banks.index(selected_bank)
    peer_banks = banks[max(0, sel_idx - N): sel_idx]
               + banks[sel_idx + 1: sel_idx + 1 + N]
and the filter `isin([selected_bank] + peer_banks)`, so the returned peer
set of names is `selected_bank :: peer_banks`.  A missing bank makes
`banks.index` raise, modelled as `Except.error`. -/
def selectPeers (df : DataFrame) (bank : String) (N : Nat) :
    Except String (List String) :=
  let banks := list_banks df
  match idxOf bank banks with
  | none => .error "ValueError: bank not in list"
  | some i => .ok (bank :: (((banks.take i).drop (i - N)) ++ ((banks.drop (i + 1)).take N)))

/-- Model of `get_peer_group` (`app.py` v1, lines 32–34): returns the whole frame
unchanged — the placeholder peer grouping. -/
def get_peer_group (df : DataFrame) (_bank : String) : DataFrame := df

/- ### CCAR placeholder columns (`app.py` v1, lines 106–121) -/

/-- The five internal CCAR column names of `ccar_cols`. -/
def ccarColumns : List String :=
  ["CET1_ratio", "Tier1_ratio", "Total_capital_ratio", "Leverage_ratio", "Supp_Tier1_ratio"]

/-- The CCAR columns absent from the frame. -/
def missingCcar (df : DataFrame) : List String :=
  ccarColumns.filter (fun c => ¬ (c ∈ df.cols))

/-- The loop `for display, col in ccar_cols.items(): if col not in
peer_df.columns: peer_df[col] = np.nan` — each missing CCAR column is
created filled with NaN, in place on the frame. -/
def ccarFill (df : DataFrame) : DataFrame :=
  { cols := df.cols ++ missingCcar df,
    rows := df.rows.map (fun r =>
      { r with cells := fun c => if c ∈ missingCcar df then FVal.nan else r.cells c }) }

/-- Model of `market_avg_ccar = peer_df[metric_col].mean(skipna=True)` over the
filled frame (`app.py` line 121). -/
def market_avg_ccar (df : DataFrame) (col : String) : FVal :=
  nmean ((ccarFill df).rows.map (fun r => r.cells col))

/- ### Data loading (`app.py` lines 28–30 and 179–180) -/

/-- The content of the first sheet of the spreadsheet: a header row of
column names, and one data row per bank (bank name plus the numeric cells
aligned positionally with the header). -/
structure XFile where
  header : List String
  dataRows : List (String × List FVal)

/-- Positional cell lookup: the value under the first header occurrence of
a column name, NaN when the column is absent or the row is ragged. -/
def lookupCell : List String → List FVal → String → FVal
  | [], _, _ => FVal.nan
  | _ :: _, [], _ => FVal.nan
  | h :: hs, v :: vs, c => if c = h then v else lookupCell hs vs c

/-- Model of `load_data(path) = pd.read_excel(path, sheet_name=0)`: parse the first
sheet into a frame, pairing the cells of each data row with the header. -/
def load_data (f : XFile) : DataFrame :=
  { cols := f.header,
    rows := f.dataRows.map (fun p =>
      { bank := p.1, cells := lookupCell f.header p.2 }) }

/-- The v2 session state: the filesystem (path ↦ file) and the cached
`st.session_state.df_raw`. -/
structure Session where
  fs : String → Option XFile
  df_raw : Option DataFrame

/-- One pass of the v2 loading block: when no frame is cached and the file
exists, load it; a cached frame is kept; loading reads but never writes the
filesystem. -/
def loadStep (path : String) (s : Session) : Session :=
  match s.df_raw with
  | some _ => s
  | none =>
      match s.fs path with
      | some f => { s with df_raw := some (load_data f) }
      | none => s

/- ### Peer-comparison chart helper (`src/plots.py` lines 5–10) -/

/-- A row of the frame of the chart helper: the `Company` key plus the numeric
metric column under comparison. -/
structure PRow where
  company : String
  metric : ℚ
deriving DecidableEq

/-- Model of `create_peer_comparison_chart`, reduced to the two numbers it displays:
    bank_value = df[df[Company] == bank_name][metric].values[0]
    peer_avg   = df[df[Company] != bank_name][metric].mean()
`values[0]` on an empty selection raises `IndexError`, modelled as `none`. -/
def create_peer_comparison_chart (df : List PRow) (bank_name : String) :
    Option (ℚ × ℚ) :=
  match (df.filter (fun r => r.company = bank_name)).map PRow.metric with
  | [] => none
  | v :: _ =>
      let peers := (df.filter (fun r => r.company ≠ bank_name)).map PRow.metric
      some (v, arithMean peers)

/- ### Helper lemmas about `idxOf`, `list_banks` and the peer window -/

theorem idxOf_eq_some {b : String} {l : List String} {i : Nat}
    (h : idxOf b l = some i) : ∃ hi : i < l.length, l[i] = b := by
  induction l generalizing i with
  | nil => simp [idxOf] at h
  | cons a l ih =>
      by_cases hab : a = b
      · simp [idxOf, hab] at h
        subst h
        exact ⟨by simp, hab⟩
      · simp [idxOf, hab] at h
        obtain ⟨j, hj, rfl⟩ := h
        obtain ⟨hjl, hjb⟩ := ih hj
        exact ⟨by simpa using Nat.succ_lt_succ hjl, by simpa using hjb⟩

theorem idxOf_isSome_of_mem {b : String} {l : List String} (h : b ∈ l) :
    ∃ i, idxOf b l = some i := by
  induction l with
  | nil => simp at h
  | cons a l ih =>
      by_cases hab : a = b
      · exact ⟨0, by simp [idxOf, hab]⟩
      · have hb : b ∈ l := by
          rcases List.mem_cons.mp h with h1 | h1
          · exact absurd h1.symm hab
          · exact h1
        obtain ⟨i, hi⟩ := ih hb
        exact ⟨i + 1, by simp [idxOf, hab, hi]⟩

theorem idxOf_eq_none_of_not_mem {b : String} {l : List String} (h : b ∉ l) :
    idxOf b l = none := by
  induction l with
  | nil => rfl
  | cons a l ih =>
      have hab : a ≠ b := fun he => h (he ▸ List.mem_cons_self a l)
      have hb : b ∉ l := fun hm => h (List.mem_cons_of_mem a hm)
      simp [idxOf, hab, ih hb]

theorem list_banks_nodup (df : DataFrame) : (list_banks df).Nodup :=
  ((df.rows.map Row.bank).dedup.perm_insertionSort strLeRel).nodup_iff.mpr
    (df.rows.map Row.bank).nodup_dedup

theorem lexLe_total (a b : List Char) : lexLe a b = true ∨ lexLe b a = true := by
  induction a generalizing b with
  | nil => left; rfl
  | cons x xs ih =>
      cases b with
      | nil => right; rfl
      | cons y ys =>
          by_cases h1 : x.toNat < y.toNat
          · left; simp [lexLe, h1]
          · by_cases h2 : y.toNat < x.toNat
            · right; simp [lexLe, h2]
            · rcases ih ys with h | h
              · left; simp [lexLe, h1, h2, h]
              · right; simp [lexLe, h1, h2, h]

theorem lexLe_trans {a b c : List Char} (h1 : lexLe a b = true)
    (h2 : lexLe b c = true) : lexLe a c = true := by
  induction a generalizing b c with
  | nil => rfl
  | cons x xs ih =>
      cases b with
      | nil => simp [lexLe] at h1
      | cons y ys =>
          cases c with
          | nil => simp [lexLe] at h2
          | cons z zs =>
              simp only [lexLe] at h1 h2 ⊢
              split_ifs at h1 h2 ⊢ <;>
                first
                  | rfl
                  | omega
                  | exact ih h1 h2

instance : IsTotal String strLeRel :=
  ⟨fun a b => lexLe_total a.data b.data⟩

instance : IsTrans String strLeRel :=
  ⟨fun _ _ _ => lexLe_trans⟩

theorem list_banks_sorted (df : DataFrame) :
    (list_banks df).Sorted strLeRel :=
  List.sorted_insertionSort strLeRel _

theorem mem_list_banks (df : DataFrame) (b : String) :
    b ∈ list_banks df ↔ b ∈ df.rows.map Row.bank := by
  unfold list_banks
  rw [((df.rows.map Row.bank).dedup.perm_insertionSort strLeRel).mem_iff, List.mem_dedup]

/-- Elements of the slice `banks[max(0, i - N): i]` are exactly the entries
at indices `j` with `j < i` and `i ≤ j + N`. -/
theorem mem_pre_window (banks : List String) (i N : Nat) (hi : i < banks.length)
    (x : String) :
    x ∈ (banks.take i).drop (i - N) ↔
      ∃ j, ∃ hj : j < banks.length, banks[j] = x ∧ j < i ∧ i ≤ j + N := by
  rw [List.mem_iff_getElem]
  constructor
  · rintro ⟨k, hk, hx⟩
    have hklen : k < i - (i - N) := by
      simpa [Nat.min_eq_left (Nat.le_of_lt hi)] using hk
    refine ⟨i - N + k, by omega, ?_, by omega, by omega⟩
    rw [← hx, List.getElem_drop, List.getElem_take]
  · rintro ⟨j, hj, hx, hji, hiN⟩
    refine ⟨j - (i - N), by simp [Nat.min_eq_left (Nat.le_of_lt hi)]; omega, ?_⟩
    rw [List.getElem_drop, List.getElem_take]
    have : i - N + (j - (i - N)) = j := by omega
    simp only [this, hx]

/-- Elements of the slice `banks[i + 1: i + 1 + N]` are exactly the entries
at indices `j` with `i < j ≤ i + N`. -/
theorem mem_post_window (banks : List String) (i N : Nat) (x : String) :
    x ∈ (banks.drop (i + 1)).take N ↔
      ∃ j, ∃ hj : j < banks.length, banks[j] = x ∧ i < j ∧ j ≤ i + N := by
  rw [List.mem_iff_getElem]
  constructor
  · rintro ⟨k, hk, hx⟩
    have hklen : k < N ∧ k < banks.length - (i + 1) := by
      simp [Nat.lt_min] at hk
      omega
    refine ⟨i + 1 + k, by omega, ?_, by omega, by omega⟩
    rw [← hx, List.getElem_take, List.getElem_drop]
  · rintro ⟨j, hj, hx, hij, hiN⟩
    refine ⟨j - (i + 1), by simp [Nat.lt_min]; omega, ?_⟩
    rw [List.getElem_take, List.getElem_drop]
    have : i + 1 + (j - (i + 1)) = j := by omega
    simp only [this, hx]

/-- The two window slices together form a sublist of `banks`. -/
theorem windows_sublist (banks : List String) (i N : Nat) :
    List.Sublist ((banks.take i).drop (i - N) ++ (banks.drop (i + 1)).take N) banks := by
  have hpre : List.Sublist ((banks.take i).drop (i - N)) (banks.take i) :=
    List.drop_sublist _ _
  have hpost : List.Sublist ((banks.drop (i + 1)).take N) (banks.drop (i + 1)) :=
    List.take_sublist _ _
  have hmid : List.Sublist (banks.drop (i + 1)) (banks.drop i) := by
    have h1 : (banks.drop i).drop 1 = banks.drop (i + 1) := List.drop_drop 1 i banks
    exact h1 ▸ List.drop_sublist 1 (banks.drop i)
  have happ : List.Sublist
      ((banks.take i).drop (i - N) ++ (banks.drop (i + 1)).take N)
      (banks.take i ++ banks.drop i) :=
    List.Sublist.append hpre (hpost.trans hmid)
  rw [List.take_append_drop i banks] at happ
  exact happ

/-- The peer-name list returned by `selectPeers` has no duplicates. -/
theorem peer_list_nodup (banks : List String) (b : String) (i N : Nat)
    (hnd : banks.Nodup) (hi : i < banks.length) (hbi : banks[i] = b) :
    (b :: ((banks.take i).drop (i - N) ++ (banks.drop (i + 1)).take N)).Nodup := by
  rw [List.nodup_cons]
  refine ⟨?_, List.Nodup.sublist (windows_sublist banks i N) hnd⟩
  intro hmem
  rcases List.mem_append.mp hmem with hmem | hmem
  · obtain ⟨j, hj, hx, hji, _⟩ := (mem_pre_window banks i N hi b).mp hmem
    have : j = i := hnd.getElem_inj_iff.mp (hx.trans hbi.symm)
    omega
  · obtain ⟨j, hj, hx, hij, _⟩ := (mem_post_window banks i N b).mp hmem
    have : j = i := hnd.getElem_inj_iff.mp (hx.trans hbi.symm)
    omega

/- ### Concrete frames used by witnesses and counterexamples -/

/-- A row carrying only a bank name (the peer-selection logic never reads
numeric cells). -/
def exRowP (b : String) : Row := { bank := b, cells := fun _ => FVal.nan }

/-- Five banks, deliberately unsorted in row order. -/
def exDf5 : DataFrame :=
  { cols := [],
    rows := [exRowP "HDFC", exRowP "Axis", exRowP "ICICI", exRowP "BoB", exRowP "SBI"] }

/-- Two banks. -/
def exDf2 : DataFrame :=
  { cols := [], rows := [exRowP "Axis", exRowP "BoB"] }

/- ### Claim theorems: peer selection -/

/-- C2: for every dataset, bank present in it and peer count `N` with
`1 ≤ N <` total bank count, `selectPeers` sorts the bank names
lexicographically, locates the target index `i`, and returns the target
together with exactly the names at indices `j` in the clipped windows
`[i - N, i)` and `(i, i + N]` (no wraparound), a list of between `1` and
`2N + 1` banks. -/
theorem selectPeers_window_spec (df : DataFrame) (bank : String) (N : Nat)
    (hmem : bank ∈ df.rows.map Row.bank) (hN : 1 ≤ N)
    (_hlt : N < (list_banks df).length) :
    (list_banks df).Sorted strLeRel ∧
    ∃ i l, ∃ hi : i < (list_banks df).length,
      idxOf bank (list_banks df) = some i ∧
      (list_banks df)[i] = bank ∧
      selectPeers df bank N = .ok l ∧
      (∀ x, x ∈ l ↔ ∃ j, ∃ hj : j < (list_banks df).length,
          (list_banks df)[j] = x ∧
          (j = i ∨ (j < i ∧ i ≤ j + N) ∨ (i < j ∧ j ≤ i + N))) ∧
      1 ≤ l.length ∧ l.length ≤ 2 * N + 1 := by
  refine ⟨list_banks_sorted df, ?_⟩
  have hbmem : bank ∈ list_banks df := (mem_list_banks df bank).mpr hmem
  obtain ⟨i, hidx⟩ := idxOf_isSome_of_mem hbmem
  obtain ⟨hi, hbi⟩ := idxOf_eq_some hidx
  refine ⟨i,
    bank :: (((list_banks df).take i).drop (i - N) ++ ((list_banks df).drop (i + 1)).take N),
    hi, hidx, hbi, ?_, ?_, ?_, ?_⟩
  · simp [selectPeers, hidx]
  · intro x
    constructor
    · intro hx
      rcases List.mem_cons.mp hx with rfl | hx
      · exact ⟨i, hi, hbi, Or.inl rfl⟩
      · rcases List.mem_append.mp hx with hx | hx
        · obtain ⟨j, hj, hjx, hji, hiN⟩ := (mem_pre_window _ i N hi x).mp hx
          exact ⟨j, hj, hjx, Or.inr (Or.inl ⟨hji, hiN⟩)⟩
        · obtain ⟨j, hj, hjx, hij, hiN⟩ := (mem_post_window _ i N x).mp hx
          exact ⟨j, hj, hjx, Or.inr (Or.inr ⟨hij, hiN⟩)⟩
    · rintro ⟨j, hj, hjx, (rfl | ⟨hji, hiN⟩ | ⟨hij, hiN⟩)⟩
      · exact List.mem_cons.mpr (Or.inl (hbi.symm.trans hjx).symm)
      · exact List.mem_cons.mpr (Or.inr (List.mem_append.mpr
          (Or.inl ((mem_pre_window _ i N hi x).mpr ⟨j, hj, hjx, hji, hiN⟩))))
      · exact List.mem_cons.mpr (Or.inr (List.mem_append.mpr
          (Or.inr ((mem_post_window _ i N x).mpr ⟨j, hj, hjx, hij, hiN⟩))))
  · simp
  · have h1 : (((list_banks df).take i).drop (i - N)).length ≤ N := by
      simp only [List.length_drop, List.length_take]
      rw [Nat.min_eq_left (Nat.le_of_lt hi)]
      omega
    have h2 : (((list_banks df).drop (i + 1)).take N).length ≤ N := by
      simp only [List.length_take, List.length_drop]
      exact Nat.min_le_left _ _
    simp only [List.length_cons, List.length_append]
    omega

/-- C6: for every dataset, bank present in it and valid peer count, the
peer-name set returned by `selectPeers` contains the target bank, has at
most `2N + 1` elements, and has no duplicate names. -/
theorem selectPeers_invariants (df : DataFrame) (bank : String) (N : Nat)
    (hmem : bank ∈ df.rows.map Row.bank) (hN : 1 ≤ N)
    (_hlt : N < (list_banks df).length) :
    ∃ l, selectPeers df bank N = .ok l ∧
      bank ∈ l ∧ l.length ≤ 2 * N + 1 ∧ l.Nodup := by
  have hbmem : bank ∈ list_banks df := (mem_list_banks df bank).mpr hmem
  obtain ⟨i, hidx⟩ := idxOf_isSome_of_mem hbmem
  obtain ⟨hi, hbi⟩ := idxOf_eq_some hidx
  refine ⟨bank :: (((list_banks df).take i).drop (i - N) ++
      ((list_banks df).drop (i + 1)).take N), ?_, ?_, ?_, ?_⟩
  · simp [selectPeers, hidx]
  · exact List.mem_cons_self _ _
  · have h1 : (((list_banks df).take i).drop (i - N)).length ≤ N := by
      simp only [List.length_drop, List.length_take]
      rw [Nat.min_eq_left (Nat.le_of_lt hi)]
      omega
    have h2 : (((list_banks df).drop (i + 1)).take N).length ≤ N := by
      simp only [List.length_take, List.length_drop]
      exact Nat.min_le_left _ _
    simp only [List.length_cons, List.length_append]
    omega
  · exact peer_list_nodup _ bank i N (list_banks_nodup df) hi hbi

/-- C2 witness: the window theorem on the five-bank frame, target `HDFC`,
peer count 1. -/
theorem C2_witness :
    ("HDFC" ∈ exDf5.rows.map Row.bank) ∧ 1 ≤ 1 ∧ 1 < (list_banks exDf5).length ∧
    ((list_banks exDf5).Sorted strLeRel ∧
     ∃ i l, ∃ hi : i < (list_banks exDf5).length,
       idxOf "HDFC" (list_banks exDf5) = some i ∧
       (list_banks exDf5)[i] = "HDFC" ∧
       selectPeers exDf5 "HDFC" 1 = .ok l ∧
       (∀ x, x ∈ l ↔ ∃ j, ∃ hj : j < (list_banks exDf5).length,
           (list_banks exDf5)[j] = x ∧
           (j = i ∨ (j < i ∧ i ≤ j + 1) ∨ (i < j ∧ j ≤ i + 1))) ∧
       1 ≤ l.length ∧ l.length ≤ 2 * 1 + 1) :=
  ⟨by decide, by decide, by decide,
   selectPeers_window_spec exDf5 "HDFC" 1 (by decide) (by decide) (by decide)⟩

/-- C6 witness: the invariants on the five-bank frame, target `Axis`,
peer count 2. -/
theorem C6_witness :
    ("Axis" ∈ exDf5.rows.map Row.bank) ∧ 1 ≤ 2 ∧ 2 < (list_banks exDf5).length ∧
    (∃ l, selectPeers exDf5 "Axis" 2 = .ok l ∧
       "Axis" ∈ l ∧ l.length ≤ 2 * 2 + 1 ∧ l.Nodup) :=
  ⟨by decide, by decide, by decide,
   selectPeers_invariants exDf5 "Axis" 2 (by decide) (by decide) (by decide)⟩

/-- C5 (amended): a target bank absent from the dataset makes
`selectPeers` fail before any peer computation (the uncaught `ValueError`
of `banks.index`); but there is no peer-count validation at all — for a
present bank the selection succeeds for every `N`, including `N < 1` and
`N ≥` bank count, the windows simply being clipped. -/
theorem selectPeers_error_amended (df : DataFrame) (bank : String) (N : Nat) :
    (bank ∉ df.rows.map Row.bank →
        selectPeers df bank N = .error "ValueError: bank not in list") ∧
    (bank ∈ df.rows.map Row.bank → ∃ l, selectPeers df bank N = .ok l ∧ bank ∈ l) := by
  constructor
  · intro habs
    have hnb : bank ∉ list_banks df := fun h => habs ((mem_list_banks df bank).mp h)
    simp [selectPeers, idxOf_eq_none_of_not_mem hnb]
  · intro hmem
    obtain ⟨i, hidx⟩ := idxOf_isSome_of_mem ((mem_list_banks df bank).mpr hmem)
    refine ⟨bank :: (((list_banks df).take i).drop (i - N) ++
        ((list_banks df).drop (i + 1)).take N), ?_, List.mem_cons_self _ _⟩
    simp [selectPeers, hidx]

/-- C5 (counterexample): the claim requires `InvalidPeerCountError` for
`N < 1` and for `N ≥` bank count, but the code accepts both: on the
two-bank frame, `N = 0` and `N = 5` both return a peer set. -/
theorem C5_counterexample :
    selectPeers exDf2 "Axis" 0 = .ok ["Axis"] ∧
    selectPeers exDf2 "Axis" 5 = .ok ["Axis", "BoB"] :=
  ⟨rfl, rfl⟩

/-- C5 witness: on a bank absent from the two-bank frame, the amended
theorem yields the error with no computation. -/
theorem C5_witness :
    ("Zed" ∉ exDf2.rows.map Row.bank) ∧
    selectPeers exDf2 "Zed" 3 = .error "ValueError: bank not in list" :=
  ⟨by decide, (selectPeers_error_amended exDf2 "Zed" 3).1 (by decide)⟩

/- ### Helper lemmas for the ratio engine -/

/-- A non-empty all-defined ratio column has the exact arithmetic mean. -/
theorem colMean_ok (rows : List Row) (f g : Row → FVal) (hne : rows ≠ [])
    (hok : ∀ r ∈ rows, rowOK f g r) :
    nmean (rows.map (fun r => (f r).div (g r))) =
      FVal.num (arithMean (rows.map (fun r => (f r).toQ / (g r).toQ))) := by
  have hval : ∀ r ∈ rows, (f r).div (g r) = FVal.num ((f r).toQ / (g r).toQ) :=
    fun r hr => div_num_of_ok _ _ (hok r hr).1 (hok r hr).2.1 (hok r hr).2.2
  have hnum : ∀ v ∈ rows.map (fun r => (f r).div (g r)), v.isNum = true := by
    intro v hv
    obtain ⟨r, hr, rfl⟩ := List.mem_map.mp hv
    rw [hval r hr]; rfl
  have hmapne : rows.map (fun r => (f r).div (g r)) ≠ [] := by
    simpa using hne
  rw [nmean_all_num _ hmapne hnum, List.map_map]
  have hmaps : (List.map (FVal.toQ ∘ fun r => (f r).div (g r)) rows) =
      rows.map (fun r => (f r).toQ / (g r).toQ) := by
    apply List.map_congr_left
    intro r hr
    simp only [Function.comp_apply, hval r hr, FVal.toQ]
  rw [hmaps]

/-- When every row is either well-defined or NaN-valued (missing operand or
0/0), the column mean is the mean over the well-defined rows only. -/
theorem colMean_mixed (rows : List Row) (f g : Row → FVal)
    (hmix : ∀ r ∈ rows, rowOK f g r ∨ ((f r).div (g r)).isNan = true) :
    nmean (rows.map (fun r => (f r).div (g r))) =
      nmean ((rows.filter (fun r => rowOK f g r)).map (fun r => (f r).div (g r))) := by
  rw [nmean_filter, List.filter_map]
  congr 2
  apply List.filter_congr
  intro r hr
  rcases hmix r hr with hok | hnan
  · have hv := div_num_of_ok _ _ hok.1 hok.2.1 hok.2.2
    simp [Function.comp, hv, FVal.isNan, hok]
  · have hnok : ¬ rowOK f g r := by
      intro hok
      have hv := div_num_of_ok _ _ hok.1 hok.2.1 hok.2.2
      rw [hv] at hnan
      simp [FVal.isNan] at hnan
    simp [Function.comp, hnan, hnok]

/- ### Concrete rows with numeric cells -/

/-- An association-list cell valuation: named columns carry the listed
values, all other columns are missing (NaN). -/
def mkCells (vals : List (String × FVal)) : String → FVal := fun c =>
  match vals.find? (fun p => p.1 = c) with
  | some p => p.2
  | none => FVal.nan

/-- The financial columns of the source list `fin_cols`. -/
def finCols : List String :=
  ["PAT", "Depreciation", "Total Liabilities (excluding equity)",
   "Cash & cash equivalents", "Total Assets", "Current Assets", "Current Liabilities",
   "Accounts Receivables", "Marketable Securities", "Core Deposits", "Total Deposits",
   "Loans", "Non performing assets", "Tier-1 Capital", "Tier-2 capital",
   "Risk weighted assets"]

/-- A fully-populated bank row. -/
def exRowA : Row :=
  { bank := "Axis",
    cells := mkCells
      [("Core Deposits", FVal.num 80), ("Total Deposits", FVal.num 100),
       ("Non performing assets", FVal.num 5), ("Loans", FVal.num 50),
       ("Cash & cash equivalents", FVal.num 30), ("Total Assets", FVal.num 200),
       ("Current Liabilities", FVal.num 40), ("Tier-1 Capital", FVal.num 20),
       ("Tier-2 capital", FVal.num 10), ("Risk weighted assets", FVal.num 120),
       ("Total Liabilities (excluding equity)", FVal.num 150)] }

/-- A second fully-populated bank row. -/
def exRowB : Row :=
  { bank := "BoB",
    cells := mkCells
      [("Core Deposits", FVal.num 60), ("Total Deposits", FVal.num 120),
       ("Non performing assets", FVal.num 6), ("Loans", FVal.num 60),
       ("Cash & cash equivalents", FVal.num 24), ("Total Assets", FVal.num 240),
       ("Current Liabilities", FVal.num 48), ("Tier-1 Capital", FVal.num 24),
       ("Tier-2 capital", FVal.num 12), ("Risk weighted assets", FVal.num 144),
       ("Total Liabilities (excluding equity)", FVal.num 180)] }

/-- A two-bank frame with every operand defined and non-zero. -/
def exDfR : DataFrame := { cols := finCols, rows := [exRowA, exRowB] }

/-- A bank row whose `Total Deposits` is zero (zero denominator for the
core-deposits ratio) while `Core Deposits` is non-zero. -/
def exRowZeroDen : Row :=
  { bank := "ZeroBank",
    cells := mkCells [("Core Deposits", FVal.num 1), ("Total Deposits", FVal.num 0)] }

/-- A bank row with core-deposits ratio one half. -/
def exRowHalf : Row :=
  { bank := "HalfBank",
    cells := mkCells [("Core Deposits", FVal.num 1), ("Total Deposits", FVal.num 2)] }

/-- A bank row whose `Core Deposits` figure is missing. -/
def exRowMissing : Row :=
  { bank := "MissBank",
    cells := mkCells [("Total Deposits", FVal.num 2)] }

/-- A frame containing a zero-denominator record and a defined record. -/
def exDfZero : DataFrame := { cols := finCols, rows := [exRowZeroDen, exRowHalf] }

/-- A frame containing a missing-operand record and a defined record. -/
def exDfMiss : DataFrame := { cols := finCols, rows := [exRowMissing, exRowHalf] }

/-- A record separating the two solvency formulas: Tier-1 = 5,
Liabilities = 10, Assets = 100. -/
def exRowS : Row :=
  { bank := "SolvBank",
    cells := mkCells [("Tier-1 Capital", FVal.num 5),
                      ("Total Liabilities (excluding equity)", FVal.num 10),
                      ("Total Assets", FVal.num 100)] }

/- ### Claim theorems: ratio engine -/

/-- C3: for every ratio of the v1 catalog and metric of the v2 catalog, on
a non-empty peer set with no zero denominators and no missing operands,
each per-bank value equals numerator divided by denominator exactly, and
the reported average (`market_avg`, `sector_avg`) equals the arithmetic
mean of the per-bank values — exact rational equality, hence within any
floating-point tolerance. -/
theorem ratio_engine_exact (df : DataFrame) (n : RatioName) (m : MetricName)
    (hne : df.rows ≠ [])
    (hok1 : ∀ r ∈ df.rows, rowOK (ratioNum n) (ratioDen n) r)
    (hok2 : ∀ r ∈ df.rows, rowOK (metricNum m) (metricDen m) r) :
    (∀ r ∈ df.rows, ratioVal n r = FVal.num ((ratioNum n r).toQ / (ratioDen n r).toQ)) ∧
    market_avg df n =
      FVal.num (arithMean (df.rows.map (fun r => (ratioNum n r).toQ / (ratioDen n r).toQ))) ∧
    (∀ r ∈ df.rows, metricVal m r = FVal.num ((metricNum m r).toQ / (metricDen m r).toQ)) ∧
    sector_avg df m =
      FVal.num (arithMean (df.rows.map (fun r => (metricNum m r).toQ / (metricDen m r).toQ))) := by
  refine ⟨?_, ?_, ?_, ?_⟩
  · intro r hr
    exact div_num_of_ok _ _ (hok1 r hr).1 (hok1 r hr).2.1 (hok1 r hr).2.2
  · exact colMean_ok df.rows (ratioNum n) (ratioDen n) hne hok1
  · intro r hr
    exact div_num_of_ok _ _ (hok2 r hr).1 (hok2 r hr).2.1 (hok2 r hr).2.2
  · exact colMean_ok df.rows (metricNum m) (metricDen m) hne hok2

/-- C3 witness: on the concrete two-bank frame, instantiated with the
core-deposits ratio and the loans/deposits metric. -/
theorem C3_witness :
    exDfR.rows ≠ [] ∧
    (∀ r ∈ exDfR.rows, rowOK (ratioNum .coreDeposits) (ratioDen .coreDeposits) r) ∧
    (∀ r ∈ exDfR.rows, rowOK (metricNum .loanDeposit) (metricDen .loanDeposit) r) ∧
    ((∀ r ∈ exDfR.rows, ratioVal .coreDeposits r =
        FVal.num ((ratioNum .coreDeposits r).toQ / (ratioDen .coreDeposits r).toQ)) ∧
     market_avg exDfR .coreDeposits =
       FVal.num (arithMean (exDfR.rows.map
         (fun r => (ratioNum .coreDeposits r).toQ / (ratioDen .coreDeposits r).toQ))) ∧
     (∀ r ∈ exDfR.rows, metricVal .loanDeposit r =
        FVal.num ((metricNum .loanDeposit r).toQ / (metricDen .loanDeposit r).toQ)) ∧
     sector_avg exDfR .loanDeposit =
       FVal.num (arithMean (exDfR.rows.map
         (fun r => (metricNum .loanDeposit r).toQ / (metricDen .loanDeposit r).toQ)))) :=
  ⟨by simp [exDfR], by decide, by decide,
   ratio_engine_exact exDfR .coreDeposits .loanDeposit (by simp [exDfR]) (by decide) (by decide)⟩

/-- C1 (counterexample): the claim says a record with a zero denominator is
excluded from the average.  On the frame with `ZeroBank` (Core Deposits 1,
Total Deposits 0) and `HalfBank` (1, 2), the zero-denominator record
produces +inf, which `mean()` does NOT skip: the reported average is +inf,
not the mean `1/2` of the defined per-bank values. -/
theorem C1_counterexample :
    market_avg exDfZero .coreDeposits = FVal.pinf ∧
    (nmean ((exDfZero.rows.filter
        (fun r => rowOK (ratioNum .coreDeposits) (ratioDen .coreDeposits) r)).map
      (ratioVal .coreDeposits))).isNum = true ∧
    market_avg exDfZero .coreDeposits ≠
      nmean ((exDfZero.rows.filter
        (fun r => rowOK (ratioNum .coreDeposits) (ratioDen .coreDeposits) r)).map
      (ratioVal .coreDeposits)) :=
  ⟨by decide, by decide, by decide⟩

/-- C1 (amended): a record whose ratio operands are missing/non-numeric, or
whose numerator and denominator are both zero, has a NaN per-bank value and
is excluded from the reported average, while the value of every well-defined record is still computed and the whole operation is total (no crash); the
average is the mean of the defined values only.  A record with a zero
denominator but non-zero numerator, however, yields ±inf and is NOT
excluded (see the counterexample). -/
theorem undefined_rows_excluded (df : DataFrame) (n : RatioName) (m : MetricName)
    (hmix1 : ∀ r ∈ df.rows, rowOK (ratioNum n) (ratioDen n) r ∨ (ratioVal n r).isNan = true)
    (hmix2 : ∀ r ∈ df.rows, rowOK (metricNum m) (metricDen m) r ∨ (metricVal m r).isNan = true) :
    (∀ r ∈ df.rows, rowOK (ratioNum n) (ratioDen n) r →
        ratioVal n r = FVal.num ((ratioNum n r).toQ / (ratioDen n r).toQ)) ∧
    market_avg df n =
      nmean ((df.rows.filter (fun r => rowOK (ratioNum n) (ratioDen n) r)).map (ratioVal n)) ∧
    (∀ r ∈ df.rows, rowOK (metricNum m) (metricDen m) r →
        metricVal m r = FVal.num ((metricNum m r).toQ / (metricDen m r).toQ)) ∧
    sector_avg df m =
      nmean ((df.rows.filter (fun r => rowOK (metricNum m) (metricDen m) r)).map (metricVal m)) := by
  refine ⟨?_, ?_, ?_, ?_⟩
  · intro r hr hok
    exact div_num_of_ok _ _ hok.1 hok.2.1 hok.2.2
  · exact colMean_mixed df.rows (ratioNum n) (ratioDen n) hmix1
  · intro r hr hok
    exact div_num_of_ok _ _ hok.1 hok.2.1 hok.2.2
  · exact colMean_mixed df.rows (metricNum m) (metricDen m) hmix2

/-- C1 witness: on the frame with a missing `Core Deposits` figure, the
amended theorem applies (the bad record is NaN-valued, the defined record
is computed, the average is over the defined record only). -/
theorem C1_witness :
    (∀ r ∈ exDfMiss.rows,
        rowOK (ratioNum .coreDeposits) (ratioDen .coreDeposits) r ∨
        (ratioVal .coreDeposits r).isNan = true) ∧
    (∀ r ∈ exDfMiss.rows,
        rowOK (metricNum .coreDeposits) (metricDen .coreDeposits) r ∨
        (metricVal .coreDeposits r).isNan = true) ∧
    ((∀ r ∈ exDfMiss.rows, rowOK (ratioNum .coreDeposits) (ratioDen .coreDeposits) r →
        ratioVal .coreDeposits r =
          FVal.num ((ratioNum .coreDeposits r).toQ / (ratioDen .coreDeposits r).toQ)) ∧
     market_avg exDfMiss .coreDeposits =
       nmean ((exDfMiss.rows.filter
           (fun r => rowOK (ratioNum .coreDeposits) (ratioDen .coreDeposits) r)).map
         (ratioVal .coreDeposits)) ∧
     (∀ r ∈ exDfMiss.rows, rowOK (metricNum .coreDeposits) (metricDen .coreDeposits) r →
        metricVal .coreDeposits r =
          FVal.num ((metricNum .coreDeposits r).toQ / (metricDen .coreDeposits r).toQ)) ∧
     sector_avg exDfMiss .coreDeposits =
       nmean ((exDfMiss.rows.filter
           (fun r => rowOK (metricNum .coreDeposits) (metricDen .coreDeposits) r)).map
         (metricVal .coreDeposits))) :=
  ⟨by decide, by decide,
   undefined_rows_excluded exDfMiss .coreDeposits .coreDeposits (by decide) (by decide)⟩

/-- C4 (counterexample): the claim wants the solvency per-bank value to be
Total Liabilities (excl. equity) / Total Assets everywhere, but the v2
`metric_defs` computes Tier-1 Capital / Total Liabilities: on a record
with Tier-1 = 5, Liabilities = 10, Assets = 100 the two differ (1/2 vs
1/10), so the formula catalog is not fixed across the two revisions. -/
theorem C4_counterexample :
    ratioVal .solvency exRowS = FVal.num ((10 : ℚ) / 100) ∧
    metricVal .solvency exRowS = FVal.num ((5 : ℚ) / 10) ∧
    metricVal .solvency exRowS ≠ ratioVal .solvency exRowS := by
  have h1 : ratioVal .solvency exRowS = FVal.num ((10 : ℚ) / 100) := rfl
  have h2 : metricVal .solvency exRowS = FVal.num ((5 : ℚ) / 10) := rfl
  refine ⟨h1, h2, ?_⟩
  rw [h1, h2]
  intro h
  have h3 : (5 : ℚ) / 10 = 10 / 100 := FVal.num.inj h
  norm_num at h3

/-- C4 (amended): on any record with defined, non-zero operands the v1
ratio table computes Solvency Ratio = Total Liabilities (excl. equity) /
Total Assets — matching the claimed catalog — while the v2 `metric_defs`
computes its `Solvency ratio` as Tier-1 Capital / Total Liabilities
(excl. equity): the solvency formula differs between the two revisions. -/
theorem solvency_two_variants (r : Row)
    (h1 : rowOK (ratioNum .solvency) (ratioDen .solvency) r)
    (h2 : rowOK (metricNum .solvency) (metricDen .solvency) r) :
    ratioVal .solvency r =
      FVal.num ((r.cells "Total Liabilities (excluding equity)").toQ /
        (r.cells "Total Assets").toQ) ∧
    metricVal .solvency r =
      FVal.num ((r.cells "Tier-1 Capital").toQ /
        (r.cells "Total Liabilities (excluding equity)").toQ) :=
  ⟨div_num_of_ok _ _ h1.1 h1.2.1 h1.2.2, div_num_of_ok _ _ h2.1 h2.2.1 h2.2.2⟩

/-- C4 witness: the amended theorem applied to the concrete solvency row. -/
theorem C4_witness :
    rowOK (ratioNum .solvency) (ratioDen .solvency) exRowS ∧
    rowOK (metricNum .solvency) (metricDen .solvency) exRowS ∧
    (ratioVal .solvency exRowS =
      FVal.num ((exRowS.cells "Total Liabilities (excluding equity)").toQ /
        (exRowS.cells "Total Assets").toQ) ∧
     metricVal .solvency exRowS =
      FVal.num ((exRowS.cells "Tier-1 Capital").toQ /
        (exRowS.cells "Total Liabilities (excluding equity)").toQ)) :=
  ⟨by decide, by decide, solvency_two_variants exRowS (by decide) (by decide)⟩

/- ### Claim theorems: dataset immutability (C7) -/

/-- C7 (counterexample): the v1 flow takes `peer_df = get_peer_group(df_raw,
bank)` — the loaded frame itself, not a copy — and the CCAR block then
assigns placeholder columns into it: the loaded dataset object after the
operation differs from the loaded dataset (it gained five NaN columns). -/
theorem C7_counterexample :
    ccarFill (get_peer_group exDfR "Axis") ≠ exDfR := by
  intro h
  have hc := congrArg DataFrame.cols h
  revert hc
  decide

/-- C7 (amended): peer grouping returns the loaded frame itself (no copy),
and the CCAR placeholder assignment then extends that frame in place with
its missing CCAR columns filled with NaN — so the loaded Dataset is NOT
read-only.  However the mutation only adds columns: the bank key and every
pre-existing column of every record keep their values, the row count is
unchanged, and a frame already containing all CCAR columns is untouched. -/
theorem dataset_mutation_amended (df : DataFrame) (bank : String) :
    get_peer_group df bank = df ∧
    (ccarFill df).cols = df.cols ++ missingCcar df ∧
    (ccarFill df).rows.length = df.rows.length ∧
    (∀ r ∈ (ccarFill df).rows, ∃ r0 ∈ df.rows,
        r.bank = r0.bank ∧
        (∀ c ∈ df.cols, r.cells c = r0.cells c) ∧
        (∀ c ∈ missingCcar df, r.cells c = FVal.nan)) ∧
    (missingCcar df = [] → ccarFill df = df) := by
  refine ⟨rfl, rfl, by simp [ccarFill], ?_, ?_⟩
  · intro r hr
    obtain ⟨r0, hr0, rfl⟩ := List.mem_map.mp hr
    refine ⟨r0, hr0, rfl, ?_, ?_⟩
    · intro c hc
      have hnm : c ∉ missingCcar df := by
        simp only [missingCcar, List.mem_filter, decide_eq_true_eq]
        exact fun hand => hand.2 hc
      simp [hnm]
    · intro c hc
      simp [hc]
  · intro hmiss
    unfold ccarFill
    rw [hmiss]
    have hrows : df.rows.map (fun r =>
        { r with cells := fun c => if c ∈ ([] : List String) then FVal.nan else r.cells c }) =
        df.rows := by
      have hid : ∀ r ∈ df.rows, ({ r with
          cells := fun c => if c ∈ ([] : List String) then FVal.nan else r.cells c } : Row) = r := by
        intro r _
        cases r
        simp
      rw [List.map_congr_left hid]
      simp
    rw [hrows]
    simp

/- ### Claim theorems: stress-metric extraction (C8) -/

/-- C8: for each fixed CCAR column, extraction reads the column directly
from the records when the column is present; when it is absent every
record gets the explicit NaN missing sentinel — never a numeric
placeholder (NaN is no `num q`) — and the reported market average is the
mean over the non-missing values only, so a missing figure never
contributes to it. -/
theorem extract_stress_spec (df : DataFrame) (col : String)
    (hcol : col ∈ ccarColumns) :
    (col ∈ df.cols →
        (ccarFill df).rows.map (fun r => r.cells col) =
          df.rows.map (fun r => r.cells col)) ∧
    (col ∉ df.cols → ∀ r ∈ (ccarFill df).rows, r.cells col = FVal.nan) ∧
    (∀ q, FVal.nan ≠ FVal.num q) ∧
    market_avg_ccar df col =
      nmean (((ccarFill df).rows.map (fun r => r.cells col)).filter
        (fun v => !v.isNan)) := by
  refine ⟨?_, ?_, by simp, nmean_filter _⟩
  · intro hpres
    have hnm : col ∉ missingCcar df := by
      simp only [missingCcar, List.mem_filter, decide_eq_true_eq]
      exact fun hand => hand.2 hpres
    unfold ccarFill
    rw [List.map_map]
    apply List.map_congr_left
    intro r _
    simp [Function.comp, hnm]
  · intro habs r hr
    have hm : col ∈ missingCcar df := by
      simp only [missingCcar, List.mem_filter, decide_eq_true_eq]
      exact ⟨hcol, habs⟩
    obtain ⟨r0, _, rfl⟩ := List.mem_map.mp hr
    simp [hm]

/-- C8 witness: the frame `exDfR` lacks `CET1_ratio`, so extraction yields
the NaN sentinel for it on every record. -/
theorem C8_witness :
    ("CET1_ratio" ∈ ccarColumns) ∧
    (("CET1_ratio" ∈ exDfR.cols →
        (ccarFill exDfR).rows.map (fun r => r.cells "CET1_ratio") =
          exDfR.rows.map (fun r => r.cells "CET1_ratio")) ∧
     ("CET1_ratio" ∉ exDfR.cols →
        ∀ r ∈ (ccarFill exDfR).rows, r.cells "CET1_ratio" = FVal.nan) ∧
     (∀ q, FVal.nan ≠ FVal.num q) ∧
     market_avg_ccar exDfR "CET1_ratio" =
       nmean (((ccarFill exDfR).rows.map (fun r => r.cells "CET1_ratio")).filter
         (fun v => !v.isNan))) :=
  ⟨by decide, extract_stress_spec exDfR "CET1_ratio" (by decide)⟩

/- ### Claim theorems: loading round-trip (C9) -/

/-- C9: starting from a fresh session whose filesystem holds the file,
running the loading block twice yields the same loaded dataset both times
— the parse of the file content — and loading never modifies the
filesystem, so there is no hidden mutation between loads. -/
theorem load_twice_identical (path : String) (s : Session) (f : XFile)
    (hfile : s.fs path = some f) (hfresh : s.df_raw = none) :
    (loadStep path s).df_raw = some (load_data f) ∧
    (loadStep path (loadStep path s)).df_raw = some (load_data f) ∧
    (loadStep path s).fs = s.fs ∧
    (loadStep path (loadStep path s)).fs = s.fs := by
  have h1 : loadStep path s = { s with df_raw := some (load_data f) } := by
    unfold loadStep
    rw [hfresh, hfile]
  refine ⟨by rw [h1], ?_, by rw [h1], ?_⟩
  · rw [h1]
    rfl
  · rw [h1]
    rfl

/-- The spreadsheet content used by the loading witness. -/
def exFile : XFile :=
  { header := ["Core Deposits", "Total Deposits"],
    dataRows := [("Axis", [FVal.num 80, FVal.num 100])] }

/-- A fresh session whose filesystem holds the expected file. -/
def exSession : Session :=
  { fs := fun p => if p = "Line items (1).xlsx" then some exFile else none,
    df_raw := none }

/-- C9 witness: the double-load theorem on the concrete fresh session. -/
theorem C9_witness :
    exSession.fs "Line items (1).xlsx" = some exFile ∧
    exSession.df_raw = none ∧
    ((loadStep "Line items (1).xlsx" exSession).df_raw = some (load_data exFile) ∧
     (loadStep "Line items (1).xlsx"
        (loadStep "Line items (1).xlsx" exSession)).df_raw = some (load_data exFile) ∧
     (loadStep "Line items (1).xlsx" exSession).fs = exSession.fs ∧
     (loadStep "Line items (1).xlsx"
        (loadStep "Line items (1).xlsx" exSession)).fs = exSession.fs) :=
  ⟨rfl, rfl, load_twice_identical "Line items (1).xlsx" exSession exFile rfl rfl⟩

/- ### Claim theorems: peer-comparison chart (C10) -/

/-- C10: given at least one row whose `Company` equals the selected bank,
the chart helper displays the metric of the FIRST such row as the bank
value, and as the peer average the arithmetic mean of the metric over
exactly the rows whose `Company` differs — the rows of the selected bank
are excluded from the peer average. -/
theorem peer_chart_values (df : List PRow) (bank : String)
    (h : df.filter (fun r => r.company = bank) ≠ []) :
    ∃ v, create_peer_comparison_chart df bank =
        some (v, arithMean ((df.filter (fun r => r.company ≠ bank)).map PRow.metric)) ∧
      ∃ pre r suf, df = pre ++ r :: suf ∧ r.company = bank ∧
        (∀ p ∈ pre, p.company ≠ bank) ∧ v = r.metric := by
  cases hflt : df.filter (fun r => r.company = bank) with
  | nil => exact absurd hflt h
  | cons r t =>
      obtain ⟨pre, suf, hdf, hpre, hr, -⟩ := List.filter_eq_cons_iff.mp hflt
      refine ⟨r.metric, ?_, pre, r, suf, hdf, by simpa using hr, ?_, rfl⟩
      · unfold create_peer_comparison_chart
        rw [hflt]
        simp
      · intro p hp
        simpa using hpre p hp

/-- Three chart rows: the selected bank plus two peers. -/
def exPRows : List PRow :=
  [{ company := "Axis", metric := 3 }, { company := "BoB", metric := 5 },
   { company := "Citi", metric := 7 }]

/-- C10 witness: the chart-helper theorem on the three concrete rows. -/
theorem C10_witness :
    exPRows.filter (fun r => r.company = "BoB") ≠ [] ∧
    (∃ v, create_peer_comparison_chart exPRows "BoB" =
        some (v, arithMean ((exPRows.filter
          (fun r => r.company ≠ "BoB")).map PRow.metric)) ∧
      ∃ pre r suf, exPRows = pre ++ r :: suf ∧ r.company = "BoB" ∧
        (∀ p ∈ pre, p.company ≠ "BoB") ∧ v = r.metric) :=
  ⟨by decide, peer_chart_values exPRows "BoB" (by decide)⟩

end BankStacx
